import Mathlib

/-!
Verification development for the Lab-Safety-Assistant repository
(`lab_safety.py`, `app.py`).

The Python source is shallowly embedded: pure functions become Lean
functions over `List Char` / `String`, floating-point scores are modelled
as exact rationals (`ℚ`), and Python values produced by `json.loads` are
modelled by the inductive type `PyVal`.  The cosine similarities produced
by the scikit-learn vectorizers (external library code) enter the model as
explicit per-document score lists.  All characters are treated as ASCII,
matching the repository's document set and examples.
-/

namespace LabSafety

/-! ### Python string primitives -/

/-- Python `\s` / `str.strip` whitespace class (ASCII portion). -/
def pyIsSpace (c : Char) : Bool :=
  c = ' ' || c = '\t' || c = '\n' || c = '\r' || c = '\x0b' || c = '\x0c'

/-- Python `str.strip()` on a character list. -/
def pyStripList (l : List Char) : List Char :=
  ((l.dropWhile pyIsSpace).reverse.dropWhile pyIsSpace).reverse

/-- Python `str.strip()`. -/
def pyStrip (s : String) : String :=
  String.mk (pyStripList s.toList)

/-- Python `str.lower()` (ASCII). -/
def pyLowerList (l : List Char) : List Char :=
  l.map Char.toLower

/-- Python `str.lower()` (ASCII). -/
def pyLower (s : String) : String :=
  String.mk (pyLowerList s.toList)

/-- Python `a in b` substring test on character lists (`"" in b` is true). -/
def isInfixB (a b : List Char) : Bool :=
  b.tails.any (fun s => a.isPrefixOf s)

/-- Python regex `\w` word-character class (ASCII portion). -/
def isWordChar (c : Char) : Bool :=
  c.isAlphanum || c = '_'

/-- Word-character status of position `i` of `l` (positions outside the
string count as non-word), used to express the regex `\b` boundary. -/
def wordAt (l : List Char) (i : Nat) : Bool :=
  match l.get? i with
  | some c => isWordChar c
  | none => false

/-- Regex `\b`: a word boundary sits before position `i` of `l` iff the
word-character status changes between positions `i - 1` and `i`. -/
def boundaryAt (l : List Char) (i : Nat) : Bool :=
  match i with
  | 0 => wordAt l 0
  | j + 1 => wordAt l j != wordAt l (j + 1)

/-- `re.search(r'\b' + re.escape(pat) + r'\b', q)` truthiness: the literal
`pat` occurs in `q` at some position with word boundaries on both sides. -/
def wholeWordB (pat q : List Char) : Bool :=
  (List.range (q.length + 1)).any
    (fun i => pat.isPrefixOf (q.drop i) && boundaryAt q i && boundaryAt q (i + pat.length))

/-! ### Data model (§3 of the spec / `load_documents`, `search_documents`) -/

/-- Per-document metadata record as built by `load_documents` and consumed
by `search_documents` (`filename`, `aliases`, `cas`, `formula` are the
fields the search tiers read). -/
structure DocMeta where
  filename : String
  aliases : List String
  cas : Option String
  formula : Option String
deriving DecidableEq

/-- A retrieved passage `{text, source, score, method}`; the float score is
modelled as an exact rational. -/
structure Passage where
  text : String
  source : String
  score : ℚ
  method : String
deriving DecidableEq

/-- Default metadata used to totalise list indexing (Python would raise
`IndexError`; all modelled runs index within bounds). -/
def defaultMeta : DocMeta := ⟨"", [], none, none⟩

def metaAt (meta : List DocMeta) (i : Nat) : DocMeta :=
  meta.getD i defaultMeta

/-! ### CAS tier: regex `\b(\d{2,7}-\d{2}-\d)\b` over the query -/

def isDigitB (c : Char) : Bool := c.isDigit

/-- `l` has exactly `k` digits starting at position `i`. -/
def digitsAt (l : List Char) (i k : Nat) : Bool :=
  let seg := (l.drop i).take k
  seg.length = k && seg.all isDigitB

def charIs (l : List Char) (i : Nat) (c : Char) : Bool :=
  match l.get? i with
  | some d => d = c
  | none => false

/-- Attempt `\d{k}-\d{2}-\d` at position `i` followed by a `\b` boundary;
returns the matched characters. -/
def casQueryAtK (l : List Char) (i k : Nat) : Option (List Char) :=
  if digitsAt l i k && charIs l (i + k) '-' && digitsAt l (i + k + 1) 2 &&
     charIs l (i + k + 3) '-' && digitsAt l (i + k + 4) 1 &&
     boundaryAt l (i + k + 5) then
    some ((l.drop i).take (k + 5))
  else
    none

/-- Attempt the full pattern at position `i`: leading `\b`, then the
greedy `\d{2,7}` tried from 7 digits down to 2. -/
def casQueryAt (l : List Char) (i : Nat) : Option (List Char) :=
  if boundaryAt l i then
    [7, 6, 5, 4, 3, 2].findSome? (fun k => casQueryAtK l i k)
  else
    none

/-- `re.search(r'\b(\d{2,7}-\d{2}-\d)\b', q)`: leftmost match. -/
def casFromQuery (l : List Char) : Option (List Char) :=
  (List.range (l.length + 1)).findSome? (fun i => casQueryAt l i)

/-- Index of the first document `m` with `m.get("cas")` truthy and the
query's CAS substring contained in it (`cas_q in m["cas"]`).  The source
returns from inside this scan loop, so only this first index is used. -/
def firstCasDoc (casQ : List Char) (meta : List DocMeta) : Option Nat :=
  (List.range meta.length).find? (fun i =>
    match (metaAt meta i).cas with
    | some c => !(c = "") && isInfixB casQ c.toList
    | none => false)

/-! ### Formula tier -/

/-- Character class of `re.findall(r'[A-Za-z0-9\(\)\+\-]+', q)`. -/
def isTokenChar (c : Char) : Bool :=
  c.isAlphanum || c = '(' || c = ')' || c = '+' || c = '-'

/-- Accumulator-style scanner for maximal token-character runs. -/
def tokenRunsAux : List Char → List Char → List (List Char)
  | acc, [] => if acc.isEmpty then [] else [acc.reverse]
  | acc, c :: rest =>
    if isTokenChar c then tokenRunsAux (c :: acc) rest
    else if acc.isEmpty then tokenRunsAux [] rest
    else acc.reverse :: tokenRunsAux [] rest

/-- Maximal runs of token characters (`re.findall` of the class above). -/
def tokenRuns (l : List Char) : List (List Char) :=
  tokenRunsAux [] l

/-- The lowered token set of the query (`set(t.lower() for t in tokens)`);
modelled as a list, membership standing in for set membership. -/
def tokenSetLower (q : List Char) : List (List Char) :=
  (tokenRuns q).map pyLowerList

/-- A document hits the formula tier iff `m.get("formula")` is truthy and
its lowercase form is an element of the query's token set. -/
def docFormulaHit (q : List Char) (m : DocMeta) : Bool :=
  match m.formula with
  | some fm => !(fm = "") && (tokenSetLower q).contains (pyLowerList fm.toList)
  | none => false

/-- Indices of formula-tier hits, in corpus order. -/
def formulaHitIdxs (q : List Char) (meta : List DocMeta) : List Nat :=
  (List.range meta.length).filter (fun i => docFormulaHit q (metaAt meta i))

/-! ### Alias tier -/

/-- `a_clean = a.strip().lower()`. -/
def aliasClean (a : List Char) : List Char :=
  pyLowerList (pyStripList a)

/-- One alias against the lowercased query: length `< 3` is skipped;
multi-word aliases match by substring containment; single-token aliases
match by regex whole word. -/
def aliasMatchB (a : List Char) (qLower : List Char) : Bool :=
  let ac := aliasClean a
  if ac.length < 3 then false
  else if ac.contains ' ' then isInfixB ac qLower
  else wholeWordB ac qLower

/-- A document hits the alias tier iff some alias matches (the source
breaks out of the per-document alias loop at the first match). -/
def docAliasHit (qLower : List Char) (m : DocMeta) : Bool :=
  m.aliases.any (fun a => aliasMatchB a.toList qLower)

/-- Indices of alias-tier hits, in corpus order (the source's seen-set
deduplication is the identity here because each document contributes at
most one hit). -/
def aliasHitIdxs (qLower : List Char) (meta : List DocMeta) : List Nat :=
  (List.range meta.length).filter (fun i => docAliasHit qLower (metaAt meta i))

/-! ### Fuzzy (TF-IDF) tier -/

/-- `combined = 0.45 * sim_word + 0.55 * sim_char`, element-wise. -/
def combinedScores (simWord simChar : List ℚ) : List ℚ :=
  List.zipWith (fun w c => 45 / 100 * w + 55 / 100 * c) simWord simChar

/-- `float(np.max(combined)) if combined.size else 0.0`. -/
def maxScoreOf : List ℚ → ℚ
  | [] => 0
  | h :: t => t.foldl max h

/-- The admission threshold `TFIDF_SCORE_THRESHOLD = 0.06`. -/
def tfidfThreshold : ℚ := 6 / 100

/-- Insert an index into a list already sorted descending by `c`. -/
def insertDesc (c : Nat → ℚ) (i : Nat) : List Nat → List Nat
  | [] => [i]
  | j :: rest => if c j < c i then i :: j :: rest else j :: insertDesc c i rest

/-- Sort indices descending by the scoring function `c` (the source sorts
with `np.argsort(...)[::-1]`; any descending order is produced there since
NumPy's default sort makes no stability promise on ties). -/
def sortDesc (c : Nat → ℚ) : List Nat → List Nat
  | [] => []
  | i :: rest => insertDesc c i (sortDesc c rest)

/-- `np.where(combined >= TFIDF_SCORE_THRESHOLD)[0]`: indices of the
documents admitted by the threshold, ascending. -/
def tfidfIdxs (simWord simChar : List ℚ) : List Nat :=
  (List.range (combinedScores simWord simChar).length).filter
    (fun i => tfidfThreshold ≤ (combinedScores simWord simChar).getD i 0)

/-- The TF-IDF fallback tier: threshold guard, per-document filter, sort
descending by combined score, truncate to `topK`. -/
def tfidfTier (corpus : List String) (meta : List DocMeta)
    (simWord simChar : List ℚ) (topK : Nat) : List Passage :=
  if maxScoreOf (combinedScores simWord simChar) < tfidfThreshold then []
  else if (tfidfIdxs simWord simChar).isEmpty then []
  else
    ((sortDesc (fun i => (combinedScores simWord simChar).getD i 0)
        (tfidfIdxs simWord simChar)).take topK).map (fun i =>
      ⟨corpus.getD i "", (metaAt meta i).filename,
        (combinedScores simWord simChar).getD i 0, "tfidf"⟩)

/-! ### `search_documents`: the tiered cascade -/

/-- The CAS tier's contribution: if the query holds a CAS-shaped substring
and some document's stored CAS number contains it, the singleton for the
first such document; otherwise empty (falling through to later tiers). -/
def casStep (q : List Char) (corpus : List String) (meta : List DocMeta) : List Passage :=
  match casFromQuery q with
  | some casQ =>
    match firstCasDoc casQ meta with
    | some i => [⟨corpus.getD i "", (metaAt meta i).filename, 1, "cas"⟩]
    | none => []
  | none => []

/-- The formula tier's passages (before `topK` truncation). -/
def formulaPassages (q : List Char) (corpus : List String) (meta : List DocMeta) : List Passage :=
  (formulaHitIdxs q meta).map (fun i =>
    ⟨corpus.getD i "", (metaAt meta i).filename, 98 / 100, "formula"⟩)

/-- The alias tier's passages (before `topK` truncation). -/
def aliasPassages (qLower : List Char) (corpus : List String) (meta : List DocMeta) : List Passage :=
  (aliasHitIdxs qLower meta).map (fun i =>
    ⟨corpus.getD i "", (metaAt meta i).filename, 95 / 100, "alias"⟩)

/-- `search_documents(query, corpus, meta, word_pair, char_pair, top_k)`.
The similarity vectors of the fitted vectorizers against the query enter
as `simWord` / `simChar` (one rational per corpus document). -/
def search_documents (query : String) (corpus : List String) (meta : List DocMeta)
    (simWord simChar : List ℚ) (topK : Nat) : List Passage :=
  if !(casStep (pyStrip query).toList corpus meta).isEmpty then
    casStep (pyStrip query).toList corpus meta
  else if !(formulaHitIdxs (pyStrip query).toList meta).isEmpty then
    (formulaPassages (pyStrip query).toList corpus meta).take topK
  else if !(aliasHitIdxs (pyLowerList (pyStrip query).toList) meta).isEmpty then
    (aliasPassages (pyLowerList (pyStrip query).toList) corpus meta).take topK
  else
    tfidfTier corpus meta simWord simChar topK

/-! ### `load_documents`: per-document metadata extraction -/

/-- Full per-document record built by the loader (`meta.append({...})`). -/
structure LoadedDoc where
  filename : String
  pretty_name : String
  header : String
  aliases : List String
  cas : Option String
  formula : Option String
  synonyms : List String
  text : String
deriving DecidableEq

/-- Set-insertion into an ordered alias list (`aliases.add(x)`); the
Python set is modelled by its membership. -/
def insertIfAbsent (l : List String) (x : String) : List String :=
  if l.contains x then l else l ++ [x]

/-- `re.sub(r'[_]+', ' ', fname)`: runs of underscores become one space
(the flag records whether the previous character was an underscore). -/
def squashUnderscoresAux : Bool → List Char → List Char
  | _, [] => []
  | prevU, c :: rest =>
    if c = '_' then
      if prevU then squashUnderscoresAux true rest
      else ' ' :: squashUnderscoresAux true rest
    else c :: squashUnderscoresAux false rest

def squashUnderscores (l : List Char) : List Char :=
  squashUnderscoresAux false l

/-- Characters Python's `splitlines` breaks the first line on, restricted
to the ASCII line separators that can occur in the document set. -/
def isLineBreak (c : Char) : Bool :=
  c = '\n' || c = '\r'

/-- Splitting class of `re.split(r'[-–—:,(]', first_line)`. -/
def isHeaderBreak (c : Char) : Bool :=
  c = '-' || c = '–' || c = '—' || c = ':' || c = ',' || c = '('

def isDigitDash (c : Char) : Bool :=
  c.isDigit || c = '-'

/-- The optional `[:#]?` after the `CAS` label: one leading colon or hash
is consumed. -/
def dropColonHash : List Char → List Char
  | c :: t => if c = ':' || c = '#' then t else c :: t
  | [] => []

/-- `CAS[:#]?\s*([0-9\-]{3,20})` (case-insensitive) attempted at the head
of `l`; the optional `[:#]` and the greedy `\s*` are deterministic here
because `:` / `#` / whitespace cannot start the captured class. -/
def casTextAt (l : List Char) : Option (List Char) :=
  if (l.take 3).map Char.toLower = ['c', 'a', 's'] then
    if 3 ≤ ((((dropColonHash (l.drop 3)).dropWhile pyIsSpace).takeWhile isDigitDash).take 20).length
    then some ((((dropColonHash (l.drop 3)).dropWhile pyIsSpace).takeWhile isDigitDash).take 20)
    else none
  else none

/-- `re.search(r'CAS[:#]?\s*([0-9\-]{3,20})', text, re.I)`: leftmost
position at which `casTextAt` succeeds. -/
def casFromText : List Char → Option (List Char)
  | [] => none
  | c :: rest =>
    match casTextAt (c :: rest) with
    | some r => some r
    | none => casFromText rest

/-- `:` or whitespace — the class `[:\s]` of the formula/synonym labels. -/
def isColonSpace (c : Char) : Bool :=
  c = ':' || pyIsSpace c

/-- `Formula\s*[:\s]*([A-Za-z0-9\(\)\+\-]+)` (case-insensitive) at the
head of `l`; `\s*[:\s]*` greedily consumes one maximal colon/whitespace
run, deterministically, because token characters are outside that class. -/
def formulaTextAt (l : List Char) : Option (List Char) :=
  if (l.take 7).map Char.toLower = ['f', 'o', 'r', 'm', 'u', 'l', 'a'] then
    let r := (l.drop 7).dropWhile isColonSpace
    let run := r.takeWhile isTokenChar
    if run.isEmpty then none else some run
  else none

/-- Leftmost formula-label match in the text. -/
def formulaFromText : List Char → Option (List Char)
  | [] => none
  | c :: rest =>
    match formulaTextAt (c :: rest) with
    | some r => some r
    | none => formulaFromText rest

/-- `Synonyms/Trade Names[:\s]*(.+?)(?:\n|$)` (case-insensitive) at the
head of `l`.  The lazy capture up to the next newline (or end) is the run
of non-newline characters after the label's colon/whitespace run; the
degenerate backtracking case in which Python captures a single leftover
colon/whitespace character yields no synonym fragment longer than two
characters and is modelled as no match. -/
def synTextAt (l : List Char) : Option (List Char) :=
  if (l.take 20).map Char.toLower =
      "synonyms/trade names".toList then
    let r := (l.drop 20).dropWhile isColonSpace
    let run := r.takeWhile (fun c => !(c = '\n'))
    if run.isEmpty then none else some run
  else none

/-- Leftmost synonyms-label match in the text. -/
def synFromText : List Char → Option (List Char)
  | [] => none
  | c :: rest =>
    match synTextAt (c :: rest) with
    | some r => some r
    | none => synFromText rest

/-- `re.split(r';|\(|\)|,', syn_str)`. -/
def isSynBreak (c : Char) : Bool :=
  c = ';' || c = '(' || c = ')' || c = ','

def splitSyns : List Char → List (List Char)
  | [] => [[]]
  | c :: rest =>
    if isSynBreak c then [] :: splitSyns rest
    else
      match splitSyns rest with
      | [] => [[c]]
      | h :: t => (c :: h) :: t

/-- `pretty_name = re.sub(r'[_]+', ' ', fname).strip()`. -/
def docPrettyName (fname : String) : String :=
  pyStrip (String.mk (squashUnderscores fname.toList))

/-- `first_line = text.splitlines()[0].strip() if text.splitlines() else
pretty_name`. -/
def docFirstLine (fname text : String) : String :=
  if text.toList.isEmpty then docPrettyName fname
  else pyStrip (String.mk (text.toList.takeWhile (fun c => !isLineBreak c)))

/-- `header_short = re.split(r'[-–—:,(]', first_line)[0].strip()`. -/
def docHeaderShort (fname text : String) : String :=
  pyStrip (String.mk ((docFirstLine fname text).toList.takeWhile (fun c => !isHeaderBreak c)))

/-- `cas = cas_match.group(1).strip() if cas_match else None`. -/
def docCas (text : String) : Option String :=
  (casFromText text.toList).map (fun r => pyStrip (String.mk r))

/-- `formula = formula_match.group(1).strip() if formula_match else None`. -/
def docFormula (text : String) : Option String :=
  (formulaFromText text.toList).map (fun r => pyStrip (String.mk r))

/-- The synonym fragments kept by the loader (`len(s2) > 2`). -/
def docSynonyms (text : String) : List String :=
  ((match synFromText text.toList with
    | some s => splitSyns s
    | none => []).map (fun s => pyStrip (String.mk s))).filter (fun s2 => 2 < s2.length)

/-- Aliases after the pretty name and (if non-empty) the short header. -/
def aliasBase (fname text : String) : List String :=
  if docHeaderShort fname text = "" then insertIfAbsent [] (pyLower (docPrettyName fname))
  else insertIfAbsent (insertIfAbsent [] (pyLower (docPrettyName fname)))
    (pyLower (docHeaderShort fname text))

/-- `if cas: aliases.add(cas)` — verbatim, not lowercased. -/
def aliasWithCas (text : String) (acc : List String) : List String :=
  match docCas text with
  | some c => if c = "" then acc else insertIfAbsent acc c
  | none => acc

/-- `if formula: aliases.add(formula.lower())`. -/
def aliasWithFormula (text : String) (acc : List String) : List String :=
  match docFormula text with
  | some f => if f = "" then acc else insertIfAbsent acc (pyLower f)
  | none => acc

/-- The full alias set of one document, in insertion order. -/
def docAliases (fname text : String) : List String :=
  (docSynonyms text).foldl (fun acc s2 => insertIfAbsent acc (pyLower s2))
    (aliasWithFormula text (aliasWithCas text (aliasBase fname text)))

/-- The loader body for one non-empty document: `fname` is the file stem,
`fullName` the file name, `text` the stripped file text.  Mirrors
`load_documents`' extraction of pretty name, header, aliases, CAS number,
formula and synonyms. -/
def loadDocMeta (fname fullName text : String) : LoadedDoc :=
  ⟨fullName, docPrettyName fname, docFirstLine fname text, docAliases fname text,
    docCas text, docFormula text, docSynonyms text, text⟩

/-- View of a loaded document as the search-tier metadata. -/
def LoadedDoc.toDocMeta (d : LoadedDoc) : DocMeta :=
  ⟨d.filename, d.aliases, d.cas, d.formula⟩

/-! ### Python values (results of `json.loads`) and the response
normalization performed at the end of `LabSafetyAssistantV3.query` -/

/-- A Python value as produced by `json.loads`: strings, numbers
(modelled as rationals), booleans, `None`, lists, and dicts (ordered
association lists with unique keys, looked up by first occurrence). -/
inductive PyVal where
  | str : String → PyVal
  | num : ℚ → PyVal
  | bool : Bool → PyVal
  | null : PyVal
  | list : List PyVal → PyVal
  | dict : List (String × PyVal) → PyVal

/-- Python truthiness. -/
def pyTruthy : PyVal → Bool
  | .str s => !(s = "")
  | .num n => !(n = 0)
  | .bool b => b
  | .null => false
  | .list l => !l.isEmpty
  | .dict d => !d.isEmpty

/-- `", ".join(...)`-style joining of a list of Python values that are
expected to be strings (on a non-string element Python raises `TypeError`
and the surrounding call fails; theorems about this function therefore
carry a well-typedness hypothesis). -/
def pyValAsStr : PyVal → String
  | .str s => s
  | _ => ""

def pyJoin (sep : String) (l : List PyVal) : String :=
  String.intercalate sep (l.map pyValAsStr)

/-- `parsed.get(key, [])` as a list of values. -/
def getListD (d : List (String × PyVal)) (key : String) : List PyVal :=
  match d.lookup key with
  | some (.list l) => l
  | _ => []

/-- A structured record is well-typed when its narrative source fields,
where present, have the types `synthesize_paragraph_from_struct` consumes
without raising: string lists for the enumerations, a string for
`explain_short`. -/
def isStrVal : PyVal → Bool
  | .str _ => true
  | _ => false

def wellTypedStruct (d : List (String × PyVal)) : Prop :=
  (∀ k ∈ ["hazards", "ppe_required", "ppe_recommended", "immediate_actions"],
    ∀ v, d.lookup k = some v → ∃ l, v = .list l ∧ l.all isStrVal) ∧
  (∀ v, d.lookup "explain_short" = some v → isStrVal v)

/-- `hazards = ", ".join(parsed.get("hazards", [])) or "Potential hazards unknown"`. -/
def synthHazards (d : List (String × PyVal)) : String :=
  if pyJoin ", " (getListD d "hazards") = "" then "Potential hazards unknown"
  else pyJoin ", " (getListD d "hazards")

/-- `ppe_req = ", ".join(parsed.get("ppe_required", [])) or "standard lab PPE"`. -/
def synthPpeReq (d : List (String × PyVal)) : String :=
  if pyJoin ", " (getListD d "ppe_required") = "" then "standard lab PPE"
  else pyJoin ", " (getListD d "ppe_required")

/-- `ppe_rec = ", ".join(parsed.get("ppe_recommended", [])) or ""`. -/
def synthPpeRec (d : List (String × PyVal)) : String :=
  pyJoin ", " (getListD d "ppe_recommended")

/-- `immediate = " ".join(parsed.get("immediate_actions", [])[:2]) if
parsed.get("immediate_actions") else ""`. -/
def synthImmediate (d : List (String × PyVal)) : String :=
  match d.lookup "immediate_actions" with
  | some v => if pyTruthy v then pyJoin " " ((getListD d "immediate_actions").take 2) else ""
  | none => ""

/-- `explain = parsed.get("explain_short") or ""`. -/
def synthExplain (d : List (String × PyVal)) : String :=
  match d.lookup "explain_short" with
  | some v => if pyTruthy v then pyValAsStr v else ""
  | none => ""

/-- `paragraph = f"{explain} Primary hazards: {hazards}. Required PPE: {ppe_req}."`. -/
def synthBase (d : List (String × PyVal)) : String :=
  synthExplain d ++ " Primary hazards: " ++ synthHazards d ++ ". Required PPE: " ++
    synthPpeReq d ++ "."

/-- The conditional `paragraph += f" Recommended: {ppe_rec}."`. -/
def synthWithRec (d : List (String × PyVal)) : String :=
  if synthPpeRec d = "" then synthBase d
  else synthBase d ++ " Recommended: " ++ synthPpeRec d ++ "."

/-- `synthesize_paragraph_from_struct(parsed)`: the base paragraph plus
the conditional `Recommended:` and `Immediate actions:` sentences. -/
def synthesize_paragraph_from_struct (d : List (String × PyVal)) : String :=
  if synthImmediate d = "" then synthWithRec d
  else synthWithRec d ++ " Immediate actions: " ++ synthImmediate d ++ "."

/-- The fixed safe-fallback sentence of the normalizer. -/
def fallbackSentence : String :=
  "I could not format a paragraph summary. Please consult SDS/EHS for authoritative guidance."

/-- The `# ensure official_response` block of `LabSafetyAssistantV3.query`:
only dicts lacking the key are repaired; a dict is extended by the
synthesized paragraph when one of `hazards` / `ppe_required` /
`explain_short` is present, else by the fixed fallback sentence. -/
def ensureOfficialResponse : PyVal → PyVal
  | .dict d =>
    if (d.lookup "official_response").isSome then .dict d
    else if (d.lookup "hazards").isSome || (d.lookup "ppe_required").isSome ||
            (d.lookup "explain_short").isSome then
      .dict (d ++ [("official_response", .str (synthesize_paragraph_from_struct d))])
    else
      .dict (d ++ [("official_response", .str fallbackSentence)])
  | v => v

/-- Normalization of a model reply: `attempt` is the outcome of
`json.loads(assistant_content)` (`none` on exception), `raw` the raw
reply string used for the `{"raw_text": ...}` fallback record. -/
def normalizeReply (attempt : Option PyVal) (raw : String) : PyVal :=
  let parsed :=
    match attempt with
    | some v => v
    | none => .dict [("raw_text", .str raw)]
  ensureOfficialResponse parsed

/-- Whether a normalized value carries a non-empty `official_response`. -/
def hasNonEmptyOfficialResponse : PyVal → Bool
  | .dict d =>
    match d.lookup "official_response" with
    | some (.str s) => !(s = "")
    | _ => false
  | _ => false

/-! ### `app.py` form-submission handler: provenance attachment -/

/-- A retrieved passage rendered back to a Python value (the entries of
the `retrieved` list stored into `parsed["retrieved_meta"]`). -/
def passageToPy (p : Passage) : PyVal :=
  .dict [("text", .str p.text), ("source", .str p.source),
         ("score", .num p.score), ("method", .str p.method)]

def passagesToPy (l : List Passage) : PyVal :=
  .list (l.map passageToPy)

/-- `if "retrieved_meta" not in parsed and retrieved:
      parsed["retrieved_meta"] = retrieved`
(app.py, form-submission handler).  No other provenance field is written;
in particular nothing named `retrieved_sources` is ever attached, and a
model-produced `retrieved_meta` is left in place. -/
def attachRetrieved (parsed : PyVal) (retrieved : List Passage) : PyVal :=
  match parsed with
  | .dict d =>
    if !(d.lookup "retrieved_meta").isSome && !retrieved.isEmpty then
      .dict (d ++ [("retrieved_meta", passagesToPy retrieved)])
    else .dict d
  | v => v

/-! ### `summarize_history` -/

/-- One content item of a structured (image-bearing) user message. -/
inductive ContentItem where
  | textItem : String → ContentItem
  | imageItem : String → ContentItem
deriving DecidableEq

/-- Message content: a plain string or a list of content items. -/
inductive HistContent where
  | str : String → HistContent
  | items : List ContentItem → HistContent
deriving DecidableEq

/-- One conversation turn (`{"role": ..., "content": ...}`). -/
structure HistTurn where
  role : String
  content : HistContent
deriving DecidableEq

/-- `re.sub(r'\s+', ' ', s)`: collapse each whitespace run to one space. -/
def collapseWsAux : Bool → List Char → List Char
  | _, [] => []
  | prevW, c :: rest =>
    if pyIsSpace c then
      if prevW then collapseWsAux true rest
      else ' ' :: collapseWsAux true rest
    else c :: collapseWsAux false rest

def collapseWs (s : String) : String :=
  String.mk (collapseWsAux false s.toList)

/-- Python `str.capitalize()`: first character upper-cased, the rest
lower-cased (ASCII). -/
def pyCapitalize (s : String) : String :=
  match s.toList with
  | [] => ""
  | c :: rest => String.mk (c.toUpper :: rest.map Char.toLower)

/-- The text parts of an item list (`itm.get("type") == "text"`). -/
def textParts (l : List ContentItem) : List String :=
  l.filterMap (fun itm =>
    match itm with
    | .textItem s => some s
    | .imageItem _ => none)

/-- The loop body of `summarize_history` for one turn: reduce structured
content to its space-joined, stripped text parts (placeholder
`"(image provided)"` when that is empty), collapse whitespace, truncate
at 200 characters to 197 plus `"..."`, and prefix the capitalized role. -/
def turnLine (m : HistTurn) : String :=
  let content_text :=
    match m.content with
    | .str s => s
    | .items l =>
      let joined := pyStrip (String.intercalate " " (textParts l))
      if joined = "" then "(image provided)" else joined
  let ct := collapseWs content_text
  let ct := if 200 < ct.length then ct.take 197 ++ "..." else ct
  pyCapitalize m.role ++ ": " ++ ct

/-- `summarize_history(chat_history, max_turns)`.  `maxTurns = 0` keeps
the whole history, matching Python's `chat_history[-0:]`. -/
def summarize_history (h : List HistTurn) (maxTurns : Nat) : String :=
  if h.isEmpty then ""
  else
    let last := if maxTurns = 0 then h else h.drop (h.length - maxTurns)
    String.intercalate "\n" (last.map turnLine)

/-! ### `user_input_to_content` and the retrieval query of a turn -/

/-- `re.match(r'(?i)^\s*image\s*:\s*(.+)$', raw_input)` evaluated on a
string with no trailing whitespace (the caller strips its input first; on
such inputs the `$` anchor and the greedy `(.+)` reduce to: the remainder
after the colon's whitespace run is non-empty and newline-free). -/
def imageMatch (s : List Char) : Option (List Char) :=
  let t := s.dropWhile pyIsSpace
  if (t.take 5).map Char.toLower = ['i', 'm', 'a', 'g', 'e'] then
    match (t.drop 5).dropWhile pyIsSpace with
    | ':' :: v =>
      let w := v.dropWhile pyIsSpace
      if !w.isEmpty && !w.contains '\n' then some w else none
    | _ => none
  else none

/-- `LabSafetyAssistantV3.user_input_to_content`: returns the user content
items and the text used as the retrieval query. -/
def user_input_to_content (raw : String) : List ContentItem × String :=
  let r := pyStrip raw
  match imageMatch r.toList with
  | some w =>
    ([.textItem "(image provided)", .imageItem (pyStrip (String.mk w))], "(image provided)")
  | none => ([.textItem r], r)

/-- The retrieval performed by `LabSafetyAssistantV3.query`:
`search_documents(retrieval_query, ...)` where the retrieval query is the
second component of `user_input_to_content`. -/
def queryRetrieved (raw : String) (corpus : List String) (meta : List DocMeta)
    (simWord simChar : List ℚ) (topK : Nat) : List Passage :=
  search_documents (user_input_to_content raw).2 corpus meta simWord simChar topK

/-- Lookup inside a Python value that may or may not be a dict. -/
def dictLookup : PyVal → String → Option PyVal
  | .dict d, k => d.lookup k
  | _, _ => none

/-- The CAS shape the specification describes: 2–7 digits, a dash, 2
digits, a dash, 1 digit (the whole string, as captured by the claimed
regex `\d{2,7}-\d{2}-\d`). -/
def casShaped (l : List Char) : Bool :=
  (List.range 6).any (fun k2 =>
    let k := k2 + 2
    l.length = k + 5 && digitsAt l 0 k && charIs l k '-' &&
      digitsAt l (k + 1) 2 && charIs l (k + 3) '-' && digitsAt l (k + 4) 1)

/-! ### Helper lemmas -/

theorem lookup_append_of_ne (d : List (String × PyVal)) (k k' : String) (v : PyVal)
    (h : ¬ k = k') : (d ++ [(k', v)]).lookup k = d.lookup k := by
  induction d with
  | nil =>
    have hb : (k == k') = false := by simp [h]
    simp [List.lookup, hb]
  | cons p rest ih =>
    cases p with
    | mk k0 v0 =>
      by_cases hk : k = k0
      · subst hk; simp [List.lookup]
      · simp only [List.cons_append, List.lookup]
        have : (k == k0) = false := by simp [hk]
        simp [this, ih]

theorem lookup_append_self (d : List (String × PyVal)) (k : String) (v : PyVal)
    (h : d.lookup k = none) : (d ++ [(k, v)]).lookup k = some v := by
  induction d with
  | nil => simp [List.lookup]
  | cons p rest ih =>
    cases p with
    | mk k0 v0 =>
      by_cases hk : k = k0
      · subst hk; simp [List.lookup] at h
      · simp only [List.lookup] at h
        have hb : (k == k0) = false := by simp [hk]
        rw [hb] at h
        simp only [List.cons_append, List.lookup, hb]
        exact ih h

theorem mem_insertIfAbsent_self (l : List String) (x : String) :
    x ∈ insertIfAbsent l x := by
  unfold insertIfAbsent
  split
  · next h => simpa using h
  · simp

theorem mem_insertIfAbsent_of_mem (l : List String) (x y : String) (h : x ∈ l) :
    x ∈ insertIfAbsent l y := by
  unfold insertIfAbsent
  split <;> simp [h]

theorem mem_foldl_insertIfAbsent {α : Type} (f : α → String) (x : String) :
    ∀ (ss : List α) (acc : List String), x ∈ acc →
      x ∈ ss.foldl (fun acc s => insertIfAbsent acc (f s)) acc := by
  intro ss
  induction ss with
  | nil => intro acc h; simpa using h
  | cons s rest ih =>
    intro acc h
    exact ih _ (mem_insertIfAbsent_of_mem _ _ _ h)

theorem mem_insertDesc (c : Nat → ℚ) (i x : Nat) (l : List Nat) :
    x ∈ insertDesc c i l ↔ x = i ∨ x ∈ l := by
  induction l with
  | nil => simp [insertDesc]
  | cons j rest ih =>
    unfold insertDesc
    split
    · simp
    · simp only [List.mem_cons, ih]
      tauto

theorem mem_sortDesc (c : Nat → ℚ) (x : Nat) (l : List Nat) :
    x ∈ sortDesc c l ↔ x ∈ l := by
  induction l with
  | nil => simp [sortDesc]
  | cons i rest ih =>
    simp [sortDesc, mem_insertDesc, ih]

theorem insertDesc_pairwise (c : Nat → ℚ) (i : Nat) (l : List Nat)
    (h : l.Pairwise (fun a b => c b ≤ c a)) :
    (insertDesc c i l).Pairwise (fun a b => c b ≤ c a) := by
  induction l with
  | nil => simp [insertDesc]
  | cons j rest ih =>
    rw [List.pairwise_cons] at h
    unfold insertDesc
    split
    · next hlt =>
      rw [List.pairwise_cons]
      constructor
      · intro x hx
        rcases List.mem_cons.mp hx with hx | hx
        · subst hx; exact le_of_lt hlt
        · exact le_trans (h.1 x hx) (le_of_lt hlt)
      · rw [List.pairwise_cons]
        exact h
    · next hge =>
      rw [List.pairwise_cons]
      constructor
      · intro x hx
        rcases (mem_insertDesc c i x rest).mp hx with hx | hx
        · subst hx; exact le_of_not_lt hge
        · exact h.1 x hx
      · exact ih h.2

theorem sortDesc_pairwise (c : Nat → ℚ) (l : List Nat) :
    (sortDesc c l).Pairwise (fun a b => c b ≤ c a) := by
  induction l with
  | nil => simp [sortDesc]
  | cons i rest ih => exact insertDesc_pairwise c i _ ih

/-- Every passage the fuzzy tier emits carries method `"tfidf"` and a
combined score at or above the admission threshold, read off the combined
score vector. -/
theorem tfidfTier_mem (corpus : List String) (meta : List DocMeta)
    (simWord simChar : List ℚ) (topK : Nat) (p : Passage)
    (hp : p ∈ tfidfTier corpus meta simWord simChar topK) :
    p.method = "tfidf" ∧ tfidfThreshold ≤ p.score ∧
      ∃ i, i < (combinedScores simWord simChar).length ∧
        p.score = (combinedScores simWord simChar).getD i 0 ∧
        p.source = (metaAt meta i).filename ∧ p.text = corpus.getD i "" := by
  unfold tfidfTier at hp
  split at hp
  · simp at hp
  · split at hp
    · simp at hp
    · rcases List.mem_map.mp hp with ⟨i, hi, hpi⟩
      have hi' : i ∈ sortDesc (fun i => (combinedScores simWord simChar).getD i 0)
          (tfidfIdxs simWord simChar) :=
        List.mem_of_mem_take hi
      rw [mem_sortDesc] at hi'
      have hmem := List.mem_filter.mp ((by simpa [tfidfIdxs] using hi') :
        i ∈ (List.range (combinedScores simWord simChar).length).filter
          (fun i => decide (tfidfThreshold ≤ (combinedScores simWord simChar).getD i 0)))
      have hrange := List.mem_range.mp hmem.1
      have hscore : tfidfThreshold ≤ (combinedScores simWord simChar).getD i 0 :=
        by simpa using hmem.2
      subst hpi
      exact ⟨rfl, hscore, i, hrange, rfl, rfl, rfl⟩

/-- The fuzzy tier returns at most `topK` passages. -/
theorem tfidfTier_length (corpus : List String) (meta : List DocMeta)
    (simWord simChar : List ℚ) (topK : Nat) :
    (tfidfTier corpus meta simWord simChar topK).length ≤ topK := by
  unfold tfidfTier
  split
  · simp
  · split
    · simp
    · rw [List.length_map]
      exact le_trans (List.length_take_le _ _) (le_refl _)

/-- The fuzzy tier's passages come out sorted descending by score. -/
theorem tfidfTier_sorted (corpus : List String) (meta : List DocMeta)
    (simWord simChar : List ℚ) (topK : Nat) :
    ((tfidfTier corpus meta simWord simChar topK).map Passage.score).Pairwise
      (fun x y => y ≤ x) := by
  unfold tfidfTier
  split
  · simp
  · split
    · simp
    · rw [List.map_map]
      have hs := sortDesc_pairwise (fun i => (combinedScores simWord simChar).getD i 0)
        (tfidfIdxs simWord simChar)
      have ht := hs.sublist (List.take_sublist topK _)
      rw [List.pairwise_map]
      exact ht.imp (fun h => h)

/-- When the maximum combined score is below the threshold the fuzzy tier
returns the empty sequence. -/
theorem tfidfTier_below_threshold (corpus : List String) (meta : List DocMeta)
    (simWord simChar : List ℚ) (topK : Nat)
    (h : maxScoreOf (combinedScores simWord simChar) < tfidfThreshold) :
    tfidfTier corpus meta simWord simChar topK = [] := by
  unfold tfidfTier
  simp [h]

/-- The synthesized paragraph always contains the fixed
`" Primary hazards: "` segment, so it is never empty. -/
theorem synthBase_pos (d : List (String × PyVal)) :
    0 < (synthBase d).length := by
  unfold synthBase
  have hpos : 0 < String.length " Primary hazards: " := by decide
  simp only [String.length_append]
  omega

theorem synthesize_ne_empty (d : List (String × PyVal)) :
    ¬ synthesize_paragraph_from_struct d = "" := by
  intro h
  have hlen := congrArg String.length h
  have h0 : String.length "" = 0 := by decide
  have hbase := synthBase_pos d
  rw [h0] at hlen
  unfold synthesize_paragraph_from_struct at hlen
  revert hlen
  split <;>
    · intro hlen
      unfold synthWithRec at hlen
      revert hlen
      split <;>
        · intro hlen
          try simp only [String.length_append] at hlen
          omega

/-- Characters captured by the loader's CAS regex are digits or dashes,
between 3 and 20 of them. -/
theorem casTextAt_run (l r : List Char) (h : casTextAt l = some r) :
    r.all isDigitDash = true ∧ 3 ≤ r.length ∧ r.length ≤ 20 := by
  unfold casTextAt at h
  split at h
  · split at h
    · next hlen =>
      cases h
      refine ⟨?_, hlen, List.length_take_le _ _⟩
      rw [List.all_eq_true]
      intro c hc
      exact List.mem_takeWhile_imp (List.mem_of_mem_take hc)
    · exact absurd h (by simp)
  · exact absurd h (by simp)

/-- The leftmost-scan inherits the captured-run properties. -/
theorem casFromText_run (l r : List Char) (h : casFromText l = some r) :
    r.all isDigitDash = true ∧ 3 ≤ r.length ∧ r.length ≤ 20 := by
  induction l with
  | nil => exact absurd h (by simp [casFromText])
  | cons c rest ih =>
    unfold casFromText at h
    cases hat : casTextAt (c :: rest) with
    | some r0 =>
      rw [hat] at h
      cases h
      exact casTextAt_run _ _ hat
    | none =>
      rw [hat] at h
      exact ih h

/-- A digit/dash run is untouched by `strip`. -/
theorem pyStripList_of_digitDash (r : List Char) (h : r.all isDigitDash = true) :
    pyStripList r = r := by
  have hns : ∀ c ∈ r, pyIsSpace c = false := by
    intro c hc
    have hd := (List.all_eq_true.mp h) c hc
    by_contra hsp
    rw [Bool.not_eq_false] at hsp
    have hcases : c = ' ' ∨ c = '\t' ∨ c = '\n' ∨ c = '\r' ∨ c = '\x0b' ∨ c = '\x0c' := by
      have := hsp
      simp only [pyIsSpace, Bool.or_eq_true, decide_eq_true_eq] at this
      tauto
    rcases hcases with h1 | h1 | h1 | h1 | h1 | h1 <;>
      · subst h1
        exact absurd hd (by decide)
  unfold pyStripList
  have d1 : r.dropWhile pyIsSpace = r := by
    cases r with
    | nil => rfl
    | cons c t =>
      rw [List.dropWhile_cons]
      simp [hns c (List.mem_cons_self c t)]
  rw [d1]
  have d2 : r.reverse.dropWhile pyIsSpace = r.reverse := by
    cases hrev : r.reverse with
    | nil => rfl
    | cons c t =>
      rw [List.dropWhile_cons]
      have : c ∈ r := by
        rw [← List.mem_reverse, hrev]
        exact List.mem_cons_self c t
      simp [hns c this]
  rw [d2, List.reverse_reverse]

/-- The leftmost-scan of the loader's CAS regex finds nothing exactly when
no position admits a match. -/
theorem casFromText_none_iff (l : List Char) :
    casFromText l = none ↔ ∀ i, casTextAt (l.drop i) = none := by
  induction l with
  | nil =>
    constructor
    · intro _ i
      rw [List.drop_nil]
      rfl
    · intro _
      rfl
  | cons c rest ih =>
    constructor
    · intro h i
      unfold casFromText at h
      cases hat : casTextAt (c :: rest) with
      | some r => rw [hat] at h; exact absurd h (by simp)
      | none =>
        rw [hat] at h
        cases i with
        | zero => simpa using hat
        | succ j => exact (ih.mp h) j
    · intro h
      unfold casFromText
      have h0 := h 0
      simp only [List.drop_zero] at h0
      rw [h0]
      exact ih.mpr (fun i => by simpa using h (i + 1))

/-! ### Claim C1 -/

/-- Claim C1 (amended): when the query holds a CAS-shaped substring and
some document's stored CAS number contains it, `search_documents` returns
exactly the singleton for the **first** such document (the source's
`return results` sits inside the scan loop), with score `1.0` and method
`"cas"`, independent of the similarity vectors and of `topK` — so no
later tier runs and `topK` is not applied. -/
theorem claim1_cas_first_only (query : String) (corpus : List String) (meta : List DocMeta)
    (simWord simChar : List ℚ) (topK : Nat) (casQ : List Char) (i : Nat)
    (hq : casFromQuery (pyStrip query).toList = some casQ)
    (hd : firstCasDoc casQ meta = some i) :
    search_documents query corpus meta simWord simChar topK =
      [⟨corpus.getD i "", (metaAt meta i).filename, 1, "cas"⟩] := by
  unfold search_documents casStep
  simp only [hq, hd]
  simp

/-- Witness for C1: a one-document corpus, searched with `topK = 0`,
still yields the CAS match. -/
theorem claim1_cas_first_only_witness :
    search_documents "7647-01-0" ["ta"] [⟨"A.txt", [], some "7647-01-0", none⟩] [] [] 0 =
      [⟨"ta", "A.txt", 1, "cas"⟩] :=
  claim1_cas_first_only "7647-01-0" ["ta"] [⟨"A.txt", [], some "7647-01-0", none⟩]
    [] [] 0 "7647-01-0".toList 0 (by decide) (by decide)

/-- Counterexample to C1 as stated: two documents both store CAS number
`7647-01-0` (each therefore contains the query's CAS substring, witnessed
by the `isInfixB` conjunct), yet the search returns only the first of
them — not "every such matching document". -/
theorem claim1_counterexample :
    search_documents "7647-01-0" ["ta", "tb"]
        [⟨"A.txt", [], some "7647-01-0", none⟩, ⟨"B.txt", [], some "7647-01-0", none⟩]
        [] [] 4 =
      [⟨"ta", "A.txt", 1, "cas"⟩] ∧
    ((search_documents "7647-01-0" ["ta", "tb"]
        [⟨"A.txt", [], some "7647-01-0", none⟩, ⟨"B.txt", [], some "7647-01-0", none⟩]
        [] [] 4).map Passage.source).contains "B.txt" = false ∧
    isInfixB "7647-01-0".toList "7647-01-0".toList = true := by
  decide

/-! ### Claim C2 -/

/-- Claim C2 (amended): the app-side handler attaches this turn's
retrieval metadata under `retrieved_meta` only when the parsed record
does not already contain that key and the retrieved list is non-empty;
an existing (possibly model-produced) `retrieved_meta` is left untouched,
and no `retrieved_sources` field is ever attached. -/
theorem claim2_attach_amended (d : List (String × PyVal)) (retrieved : List Passage) :
    (d.lookup "retrieved_meta" = none → ¬ retrieved = [] →
      attachRetrieved (.dict d) retrieved =
        .dict (d ++ [("retrieved_meta", passagesToPy retrieved)])) ∧
    ((d.lookup "retrieved_meta").isSome →
      attachRetrieved (.dict d) retrieved = .dict d) ∧
    (retrieved = [] → attachRetrieved (.dict d) retrieved = .dict d) ∧
    dictLookup (attachRetrieved (.dict d) retrieved) "retrieved_sources" =
      d.lookup "retrieved_sources" := by
  refine ⟨?_, ?_, ?_, ?_⟩
  · intro hnone hne
    unfold attachRetrieved
    simp [hnone, hne]
  · intro hsome
    unfold attachRetrieved
    simp [hsome]
  · intro hnil
    subst hnil
    unfold attachRetrieved
    simp
  · have hdict : attachRetrieved (.dict d) retrieved =
        if (!(d.lookup "retrieved_meta").isSome && !retrieved.isEmpty) = true then
          .dict (d ++ [("retrieved_meta", passagesToPy retrieved)])
        else .dict d := rfl
    rw [hdict]
    split
    · exact lookup_append_of_ne d "retrieved_sources" "retrieved_meta" _ (by decide)
    · rfl

/-- Witness for C2 (amended): with the key absent and one retrieved
passage, the metadata is attached; with a model-produced value present,
it is kept. -/
theorem claim2_attach_amended_witness :
    attachRetrieved (.dict []) [⟨"t", "A.txt", 1, "cas"⟩] =
      .dict [("retrieved_meta", passagesToPy [⟨"t", "A.txt", 1, "cas"⟩])] ∧
    attachRetrieved (.dict [("retrieved_meta", .str "MODEL")]) [⟨"t", "A.txt", 1, "cas"⟩] =
      .dict [("retrieved_meta", .str "MODEL")] :=
  ⟨by
    have := (claim2_attach_amended [] [⟨"t", "A.txt", 1, "cas"⟩]).1 rfl (by simp)
    simpa using this,
   (claim2_attach_amended [("retrieved_meta", .str "MODEL")]
      [⟨"t", "A.txt", 1, "cas"⟩]).2.1 (by rfl)⟩

/-- Counterexample to C2 as stated: a model reply that itself contains a
`retrieved_meta` field passes through the handler unchanged — the
authoritative retrieval metadata does **not** overwrite it, and no
`retrieved_sources` field is attached at all. -/
theorem claim2_counterexample :
    attachRetrieved (.dict [("official_response", .str "x"), ("retrieved_meta", .str "MODEL")])
        [⟨"t", "A.txt", 1, "cas"⟩] =
      .dict [("official_response", .str "x"), ("retrieved_meta", .str "MODEL")] ∧
    dictLookup
        (attachRetrieved (.dict [("official_response", .str "x"), ("retrieved_meta", .str "MODEL")])
          [⟨"t", "A.txt", 1, "cas"⟩]) "retrieved_meta" = some (.str "MODEL") ∧
    dictLookup
        (attachRetrieved (.dict [("official_response", .str "x"), ("retrieved_meta", .str "MODEL")])
          [⟨"t", "A.txt", 1, "cas"⟩]) "retrieved_sources" = none ∧
    ¬ (PyVal.str "MODEL") = passagesToPy [⟨"t", "A.txt", 1, "cas"⟩] := by
  refine ⟨rfl, rfl, rfl, ?_⟩
  intro h
  exact PyVal.noConfusion h

/-! ### Claim C7 -/

/-- Claim C7 (confirmed): the normalization step leaves a record that
already carries `official_response` entirely unchanged — in particular
the `official_response` field is not altered, so normalization is
idempotent on it. -/
theorem claim7_normalizer_idempotent (d : List (String × PyVal))
    (h : (d.lookup "official_response").isSome) :
    ensureOfficialResponse (.dict d) = .dict d := by
  unfold ensureOfficialResponse
  simp [h]

/-- Witness for C7 at a concrete already-normalized record. -/
theorem claim7_normalizer_idempotent_witness :
    ensureOfficialResponse (.dict [("official_response", .str "Wear goggles.")]) =
      .dict [("official_response", .str "Wear goggles.")] :=
  claim7_normalizer_idempotent [("official_response", .str "Wear goggles.")] (by rfl)

/-! ### Claim C9 -/

/-- Claim C9 (confirmed): whenever the stripped raw input matches the
`image:` prefix pattern with a non-empty reference, the retrieval query
passed to `search_documents` is the literal `"(image provided)"`, while
the image reference itself is carried only in the user content items. -/
theorem claim9_image_query (raw : String) (w : List Char)
    (h : imageMatch (pyStrip raw).toList = some w) :
    (user_input_to_content raw).2 = "(image provided)" ∧
    (user_input_to_content raw).1 =
      [.textItem "(image provided)", .imageItem (pyStrip (String.mk w))] ∧
    ∀ (corpus : List String) (meta : List DocMeta) (simWord simChar : List ℚ) (topK : Nat),
      queryRetrieved raw corpus meta simWord simChar topK =
        search_documents "(image provided)" corpus meta simWord simChar topK := by
  have h' : imageMatch (pyStrip raw).data = some w := h
  unfold queryRetrieved user_input_to_content
  simp [h']

/-- Witness for C9 at the concrete input `"image: http://x"`. -/
theorem claim9_image_query_witness :
    (user_input_to_content "image: http://x").2 = "(image provided)" ∧
    (user_input_to_content "image: http://x").1 =
      [.textItem "(image provided)", .imageItem "http://x"] :=
  ⟨(claim9_image_query "image: http://x" "http://x".toList (by decide)).1,
   (claim9_image_query "image: http://x" "http://x".toList (by decide)).2.1⟩

/-! ### Claim C3 -/

/-- Claim C3 (amended): a reply whose `json.loads` fails yields the
`raw_text` fallback record extended with the non-empty fixed fallback
sentence; a reply parsing to a JSON object keeps a present
`official_response` verbatim and otherwise (with well-typed structural
fields, which is what keeps the Python synthesis from raising) gains a
non-empty synthesized or fixed `official_response`; but a reply parsing
to a non-object JSON value passes through normalization unchanged and
need not contain `official_response` at all. -/
theorem claim3_normalize_amended (attempt : Option PyVal) (raw : String) :
    (attempt = none →
      normalizeReply attempt raw =
        .dict [("raw_text", .str raw), ("official_response", .str fallbackSentence)] ∧
      hasNonEmptyOfficialResponse (normalizeReply attempt raw) = true) ∧
    (∀ d, attempt = some (.dict d) →
      ((d.lookup "official_response").isSome → normalizeReply attempt raw = .dict d) ∧
      (d.lookup "official_response" = none → wellTypedStruct d →
        hasNonEmptyOfficialResponse (normalizeReply attempt raw) = true)) ∧
    (∀ v, attempt = some v → (∀ d, ¬ v = PyVal.dict d) → normalizeReply attempt raw = v) := by
  refine ⟨?_, ?_, ?_⟩
  · intro hnone
    subst hnone
    constructor
    · rfl
    · rfl
  · intro d hd
    subst hd
    constructor
    · intro hsome
      show ensureOfficialResponse (.dict d) = .dict d
      unfold ensureOfficialResponse
      simp [hsome]
    · intro habsent _
      show hasNonEmptyOfficialResponse (ensureOfficialResponse (.dict d)) = true
      have hdict : ensureOfficialResponse (.dict d) =
          if (d.lookup "official_response").isSome then PyVal.dict d
          else if (d.lookup "hazards").isSome || (d.lookup "ppe_required").isSome ||
                  (d.lookup "explain_short").isSome then
            .dict (d ++ [("official_response", .str (synthesize_paragraph_from_struct d))])
          else .dict (d ++ [("official_response", .str fallbackSentence)]) := rfl
      have hne : ∀ v : PyVal, (d ++ [("official_response", v)]).lookup "official_response" =
          some v := fun v => lookup_append_self d _ v habsent
      have hmatch : ∀ s : String, ¬ s = "" →
          hasNonEmptyOfficialResponse (.dict (d ++ [("official_response", .str s)])) = true := by
        intro s hs
        have hd2 : hasNonEmptyOfficialResponse (.dict (d ++ [("official_response", .str s)])) =
            (match (d ++ [("official_response", PyVal.str s)]).lookup "official_response" with
             | some (PyVal.str t) => !(t = "")
             | _ => false) := rfl
        rw [hd2, hne (.str s)]
        simpa using hs
      rw [hdict, habsent]
      simp only [Option.isSome_none, Bool.false_eq_true, if_false]
      split
      · exact hmatch _ (synthesize_ne_empty d)
      · exact hmatch _ (by simp [fallbackSentence])
  · intro v hv hnd
    subst hv
    show ensureOfficialResponse v = v
    cases v with
    | dict d => exact absurd rfl (hnd d)
    | str s => rfl
    | num n => rfl
    | bool b => rfl
    | null => rfl
    | list l => rfl

/-- Witness for C3 (amended): an unparseable reply gains the fixed
fallback sentence; a parseable object reply lacking the field gains a
non-empty synthesized one. -/
theorem claim3_normalize_amended_witness :
    normalizeReply none "not json" =
      .dict [("raw_text", .str "not json"), ("official_response", .str fallbackSentence)] ∧
    hasNonEmptyOfficialResponse
      (normalizeReply (some (.dict [("explain_short", .str "Careful.")])) "x") = true :=
  ⟨((claim3_normalize_amended none "not json").1 rfl).1,
   ((claim3_normalize_amended (some (.dict [("explain_short", .str "Careful.")])) "x").2.1
      [("explain_short", .str "Careful.")] rfl).2 rfl
      ⟨fun k hk v hv => by
        have hk' : k = "hazards" ∨ k = "ppe_required" ∨ k = "ppe_recommended" ∨
            k = "immediate_actions" := by simpa using hk
        rcases hk' with h1 | h1 | h1 | h1 <;> (subst h1; simp [List.lookup] at hv),
       fun v hv => by
        have : v = .str "Careful." := by
          have h0 : List.lookup "explain_short" [("explain_short", PyVal.str "Careful.")] =
            some (.str "Careful.") := rfl
          rw [h0] at hv
          exact (Option.some_inj.mp hv).symm
        rw [this]
        rfl⟩⟩

/-- Counterexample to C3 as stated: the reply `"[1]"` parses (to the JSON
array `[1]`, not an object), normalization returns it unchanged, and the
result carries no `official_response` at all. -/
theorem claim3_counterexample :
    normalizeReply (some (.list [.num 1])) "[1]" = .list [.num 1] ∧
    hasNonEmptyOfficialResponse (normalizeReply (some (.list [.num 1])) "[1]") = false ∧
    dictLookup (normalizeReply (some (.list [.num 1])) "[1]") "official_response" = none :=
  ⟨rfl, rfl, rfl⟩

/-! ### Claim C5 -/

/-- Claim C5 (amended): the loader's extracted `casNumber` is the leftmost
match of `CAS` (case-insensitive) followed by an optional `:` or `#`,
optional whitespace, and a greedy run of 3–20 digit-or-dash characters —
not the stricter `\d{2,7}-\d{2}-\d` shape; when a match exists the
captured run is a digit/dash string of length 3–20, stored as `casNumber`
and added verbatim to the alias set, and when no position of the text
admits such a match no `casNumber` is extracted. -/
theorem claim5_cas_extraction_amended (fname fullName text : String) :
    (∀ r, casFromText text.toList = some r →
      (loadDocMeta fname fullName text).cas = some (String.mk r) ∧
      String.mk r ∈ (loadDocMeta fname fullName text).aliases ∧
      r.all isDigitDash = true ∧ 3 ≤ r.length ∧ r.length ≤ 20) ∧
    (casFromText text.toList = none → (loadDocMeta fname fullName text).cas = none) ∧
    (casFromText text.toList = none ↔ ∀ i, casTextAt (text.toList.drop i) = none) := by
  refine ⟨?_, ?_, casFromText_none_iff text.toList⟩
  · intro r hr
    have hrun := casFromText_run text.toList r hr
    have hstrip : pyStrip (String.mk r) = String.mk r := by
      unfold pyStrip
      rw [show (String.mk r).toList = r from rfl, pyStripList_of_digitDash r hrun.1]
    have hcas : docCas text = some (String.mk r) := by
      unfold docCas
      rw [hr]
      show some (pyStrip (String.mk r)) = some (String.mk r)
      rw [hstrip]
    have hne : ¬ String.mk r = "" := by
      intro h0
      have hl := congrArg String.length h0
      have hlen : (String.mk r).length = r.length := rfl
      rw [hlen] at hl
      have h3 := hrun.2.1
      have h0' : String.length "" = 0 := by decide
      rw [h0'] at hl
      omega
    refine ⟨hcas, ?_, hrun⟩
    show String.mk r ∈ docAliases fname text
    unfold docAliases
    apply mem_foldl_insertIfAbsent
    unfold aliasWithFormula
    have hmem2 : String.mk r ∈ aliasWithCas text (aliasBase fname text) := by
      unfold aliasWithCas
      rw [hcas]
      show String.mk r ∈
        if String.mk r = "" then aliasBase fname text
        else insertIfAbsent (aliasBase fname text) (String.mk r)
      rw [if_neg hne]
      exact mem_insertIfAbsent_self _ _
    cases docFormula text with
    | some f =>
      by_cases hf : f = ""
      · simpa [hf] using hmem2
      · simpa [hf] using mem_insertIfAbsent_of_mem _ _ (pyLower f) hmem2
    | none => simpa using hmem2
  · intro hnone
    show docCas text = none
    unfold docCas
    rw [hnone]
    rfl

/-- Witness for C5 (amended), on a document whose text carries a real CAS
number introduced by `CAS#`. -/
theorem claim5_cas_extraction_amended_witness :
    (loadDocMeta "Formaldehyde" "Formaldehyde.txt" "Formaldehyde\nCAS# 50-00-0").cas =
      some "50-00-0" ∧
    "50-00-0" ∈ (loadDocMeta "Formaldehyde" "Formaldehyde.txt" "Formaldehyde\nCAS# 50-00-0").aliases :=
  ⟨((claim5_cas_extraction_amended "Formaldehyde" "Formaldehyde.txt"
      "Formaldehyde\nCAS# 50-00-0").1 "50-00-0".toList (by decide)).1,
   ((claim5_cas_extraction_amended "Formaldehyde" "Formaldehyde.txt"
      "Formaldehyde\nCAS# 50-00-0").1 "50-00-0".toList (by decide)).2.1⟩

/-- Counterexample to C5 as stated: from the text `"CAS: 123"` the loader
extracts `casNumber = "123"`, which is not of the claimed
`\d{2,7}-\d{2}-\d` shape — indeed no substring of that text has the
claimed shape, yet a `casNumber` is extracted. -/
theorem claim5_counterexample :
    (loadDocMeta "X" "X.txt" "CAS: 123").cas = some "123" ∧
    casShaped "123".toList = false ∧
    ((List.range ("CAS: 123".toList.length + 1)).all (fun i =>
      (List.range ("CAS: 123".toList.length + 1)).all (fun n =>
        !casShaped (("CAS: 123".toList.drop i).take n)))) = true := by
  decide

/-! ### Claim C6 -/

/-- Claim C6 (confirmed): in the alias tier, a cleaned alias shorter than
3 characters never matches; a cleaned alias containing a space matches
exactly by substring containment in the lowercased query; a single-token
cleaned alias matches exactly by whole-word (regex `\b`) occurrence; and
on the query `"an acid"` a document whose only alias is `"an"` is not
returned while a document with registered alias `"acid"` is. -/
theorem claim6_alias_tier (a qLower : List Char) :
    ((aliasClean a).length < 3 → aliasMatchB a qLower = false) ∧
    (3 ≤ (aliasClean a).length → (aliasClean a).contains ' ' = true →
      aliasMatchB a qLower = isInfixB (aliasClean a) qLower) ∧
    (3 ≤ (aliasClean a).length → (aliasClean a).contains ' ' = false →
      aliasMatchB a qLower = wholeWordB (aliasClean a) qLower) ∧
    search_documents "an acid" ["ta", "tb"]
        [⟨"A.txt", ["an"], none, none⟩, ⟨"B.txt", ["acid"], none, none⟩] [0, 0] [0, 0] 4 =
      [⟨"tb", "B.txt", 95 / 100, "alias"⟩] := by
  refine ⟨?_, ?_, ?_, by rfl⟩
  · intro h
    unfold aliasMatchB
    rw [if_pos h]
  · intro h3 hsp
    unfold aliasMatchB
    rw [if_neg (by omega : ¬ (aliasClean a).length < 3), if_pos hsp]
  · intro h3 hsp
    unfold aliasMatchB
    rw [if_neg (by omega : ¬ (aliasClean a).length < 3),
      if_neg (by rw [hsp]; exact Bool.false_ne_true)]

/-- Witness for C6 at the claim's own example: alias `"an"` is excluded
by length, alias `"acid"` matches whole-word in `"an acid"`. -/
theorem claim6_alias_tier_witness :
    aliasMatchB "an".toList "an acid".toList = false ∧
    aliasMatchB "acid".toList "an acid".toList = wholeWordB "acid".toList "an acid".toList ∧
    wholeWordB "acid".toList "an acid".toList = true :=
  ⟨(claim6_alias_tier "an".toList "an acid".toList).1 (by decide),
   (claim6_alias_tier "acid".toList "an acid".toList).2.2.1 (by decide) (by decide),
   by decide⟩

/-! ### Claim C10 -/

/-- Claim C10 (confirmed): every passage returned by `search_documents`
carries a score of at least the 0.06 admission threshold — exactly `1.0`
with method `"cas"`, exactly `0.98` with `"formula"`, exactly `0.95` with
`"alias"`, and a combined similarity at or above the threshold with
`"tfidf"`. -/
theorem claim10_score_invariant (query : String) (corpus : List String) (meta : List DocMeta)
    (simWord simChar : List ℚ) (topK : Nat) (_htop : 1 ≤ topK) :
    ∀ p ∈ search_documents query corpus meta simWord simChar topK,
      tfidfThreshold ≤ p.score ∧
      ((p.method = "cas" ∧ p.score = 1) ∨ (p.method = "formula" ∧ p.score = 98 / 100) ∨
       (p.method = "alias" ∧ p.score = 95 / 100) ∨
       (p.method = "tfidf" ∧ tfidfThreshold ≤ p.score)) := by
  intro p hp
  unfold search_documents at hp
  split at hp
  · -- CAS tier
    unfold casStep at hp
    cases hq : casFromQuery (pyStrip query).toList with
    | some casQ =>
      cases hd : firstCasDoc casQ meta with
      | some i =>
        simp only [hq, hd, List.mem_singleton] at hp
        subst hp
        exact ⟨by norm_num [tfidfThreshold], Or.inl ⟨rfl, rfl⟩⟩
      | none =>
        simp only [hq, hd] at hp
        simp at hp
    | none =>
      simp only [hq] at hp
      simp at hp
  · split at hp
    · -- formula tier
      have hp' : p ∈ formulaPassages (pyStrip query).toList corpus meta :=
        List.mem_of_mem_take hp
      unfold formulaPassages at hp'
      rcases List.mem_map.mp hp' with ⟨i, _, rfl⟩
      exact ⟨by norm_num [tfidfThreshold], Or.inr (Or.inl ⟨rfl, rfl⟩)⟩
    · split at hp
      · -- alias tier
        have hp' : p ∈ aliasPassages (pyLowerList (pyStrip query).toList) corpus meta :=
          List.mem_of_mem_take hp
        unfold aliasPassages at hp'
        rcases List.mem_map.mp hp' with ⟨i, _, rfl⟩
        exact ⟨by norm_num [tfidfThreshold], Or.inr (Or.inr (Or.inl ⟨rfl, rfl⟩))⟩
      · -- fuzzy tier
        have h := tfidfTier_mem corpus meta simWord simChar topK p hp
        exact ⟨h.2.1, Or.inr (Or.inr (Or.inr ⟨h.1, h.2.1⟩))⟩

/-- Witness for C10 across three tiers at concrete inputs. -/
theorem claim10_score_invariant_witness :
    (∀ p ∈ search_documents "7647-01-0" ["ta"] [⟨"A.txt", [], some "7647-01-0", none⟩] [] [] 4,
      tfidfThreshold ≤ p.score) ∧
    (∀ p ∈ search_documents "an acid" ["ta", "tb"]
        [⟨"A.txt", ["an"], none, none⟩, ⟨"B.txt", ["acid"], none, none⟩] [0, 0] [0, 0] 4,
      tfidfThreshold ≤ p.score) :=
  ⟨fun p hp => (claim10_score_invariant "7647-01-0" ["ta"]
      [⟨"A.txt", [], some "7647-01-0", none⟩] [] [] 4 (by decide) p hp).1,
   fun p hp => (claim10_score_invariant "an acid" ["ta", "tb"]
      [⟨"A.txt", ["an"], none, none⟩, ⟨"B.txt", ["acid"], none, none⟩] [0, 0] [0, 0] 4
      (by decide) p hp).1⟩

/-! ### Claim C4 -/

/-- Claim C4 (confirmed): for every query and corpus reaching the fuzzy
tier (no CAS, formula or alias hit), the search reduces to the TF-IDF
tier over `0.45 * wordSim + 0.55 * charSim`: below a maximal combined
score of 0.06 the result is empty, and otherwise every returned passage
has method `"tfidf"` and a combined score at or above 0.06 read off the
combined vector, in descending score order, truncated to `topK`. -/
theorem claim4_fuzzy_tier (query : String) (corpus : List String) (meta : List DocMeta)
    (simWord simChar : List ℚ) (topK : Nat)
    (hcas : casStep (pyStrip query).toList corpus meta = [])
    (hf : formulaHitIdxs (pyStrip query).toList meta = [])
    (ha : aliasHitIdxs (pyLowerList (pyStrip query).toList) meta = []) :
    search_documents query corpus meta simWord simChar topK =
      tfidfTier corpus meta simWord simChar topK ∧
    (maxScoreOf (combinedScores simWord simChar) < tfidfThreshold →
      search_documents query corpus meta simWord simChar topK = []) ∧
    (∀ p ∈ search_documents query corpus meta simWord simChar topK,
      p.method = "tfidf" ∧ tfidfThreshold ≤ p.score ∧
        ∃ i, i < (combinedScores simWord simChar).length ∧
          p.score = (combinedScores simWord simChar).getD i 0) ∧
    (search_documents query corpus meta simWord simChar topK).length ≤ topK ∧
    ((search_documents query corpus meta simWord simChar topK).map Passage.score).Pairwise
      (fun x y => y ≤ x) := by
  have heq : search_documents query corpus meta simWord simChar topK =
      tfidfTier corpus meta simWord simChar topK := by
    unfold search_documents
    rw [hcas, hf, ha]
    simp
  refine ⟨heq, ?_, ?_, ?_, ?_⟩
  · intro hmax
    rw [heq]
    exact tfidfTier_below_threshold corpus meta simWord simChar topK hmax
  · intro p hp
    rw [heq] at hp
    have h := tfidfTier_mem corpus meta simWord simChar topK p hp
    obtain ⟨i, hi, hsc, _, _⟩ := h.2.2
    exact ⟨h.1, h.2.1, i, hi, hsc⟩
  · rw [heq]
    exact tfidfTier_length corpus meta simWord simChar topK
  · rw [heq]
    exact tfidfTier_sorted corpus meta simWord simChar topK

/-- Witness for C4: a one-document corpus with no identifier or alias
hits and a combined similarity of 0.01, below the threshold, yields the
empty result. -/
theorem claim4_fuzzy_tier_witness :
    search_documents "gibberish xq" ["ta"] [⟨"A.txt", ["alpha"], none, none⟩]
      [1 / 100] [1 / 100] 4 = [] :=
  (claim4_fuzzy_tier "gibberish xq" ["ta"] [⟨"A.txt", ["alpha"], none, none⟩]
      [1 / 100] [1 / 100] 4 (by decide) (by decide) (by decide)).2.1
    (by norm_num [combinedScores, maxScoreOf, tfidfThreshold])

/-! ### Claim C8 -/

/-- The per-turn line as claim C8 literally words it: content reduced to
the space-joined text parts with the placeholder only when **no** text
part exists, then truncation at 200 characters — no whitespace collapse. -/
def claimLine (m : HistTurn) : String :=
  pyCapitalize m.role ++ ": " ++
    (if 200 < (match m.content with
        | .str s => s
        | .items l =>
          if (textParts l).isEmpty then "(image provided)"
          else String.intercalate " " (textParts l)).length then
      (match m.content with
        | .str s => s
        | .items l =>
          if (textParts l).isEmpty then "(image provided)"
          else String.intercalate " " (textParts l)).take 197 ++ "..."
    else
      (match m.content with
        | .str s => s
        | .items l =>
          if (textParts l).isEmpty then "(image provided)"
          else String.intercalate " " (textParts l)))

/-- `summarize_history` as claim C8 literally words it. -/
def claimSummarize (h : List HistTurn) : String :=
  if h.isEmpty then "" else String.intercalate "\n" ((h.drop (h.length - 6)).map claimLine)

/-- The per-turn line as amended: placeholder whenever the stripped
space-join of the text parts is empty (in particular with no text part),
and whitespace collapsed before the 200-character truncation. -/
def amendedLine (m : HistTurn) : String :=
  pyCapitalize m.role ++ ": " ++
    (if (collapseWs (match m.content with
        | .str s => s
        | .items l =>
          if pyStrip (String.intercalate " " (textParts l)) = "" then "(image provided)"
          else pyStrip (String.intercalate " " (textParts l)))).length ≤ 200 then
      collapseWs (match m.content with
        | .str s => s
        | .items l =>
          if pyStrip (String.intercalate " " (textParts l)) = "" then "(image provided)"
          else pyStrip (String.intercalate " " (textParts l)))
    else
      (collapseWs (match m.content with
        | .str s => s
        | .items l =>
          if pyStrip (String.intercalate " " (textParts l)) = "" then "(image provided)"
          else pyStrip (String.intercalate " " (textParts l)))).take 197 ++ "...")

/-- The loop body and the amended per-line description agree. -/
theorem turnLine_eq_amendedLine (m : HistTurn) : turnLine m = amendedLine m := by
  cases m with
  | mk role content =>
    cases content with
    | str s =>
      unfold turnLine amendedLine
      dsimp only
      by_cases hlen : 200 < (collapseWs s).length
      · rw [if_pos hlen, if_neg (by omega)]
      · rw [if_neg hlen, if_pos (by omega)]
    | items l =>
      unfold turnLine amendedLine
      dsimp only
      by_cases hj : pyStrip (String.intercalate " " (textParts l)) = ""
      · rw [if_pos hj]
        by_cases hlen : 200 < (collapseWs "(image provided)").length
        · rw [if_pos hlen, if_neg (by omega)]
        · rw [if_neg hlen, if_pos (by omega)]
      · rw [if_neg hj]
        by_cases hlen :
            200 < (collapseWs (pyStrip (String.intercalate " " (textParts l)))).length
        · rw [if_pos hlen, if_neg (by omega)]
        · rw [if_neg hlen, if_pos (by omega)]

/-- Claim C8 (amended): `summarize_history` with `max_turns = 6` returns
the empty string on an empty history, and otherwise one line per kept
turn of the last 6 turns, each `"<Role>: <content>"` with the content
whitespace-collapsed and truncated (197 characters plus ellipsis) when
longer than 200 characters, list content reduced to the stripped
space-join of its text parts with the `"(image provided)"` placeholder
whenever that is empty — in particular when no text part exists. -/
theorem claim8_summarize_amended :
    summarize_history [] 6 = "" ∧
    ∀ h : List HistTurn, ¬ h = [] →
      summarize_history h 6 =
        String.intercalate "\n" ((h.drop (h.length - 6)).map amendedLine) ∧
      ((h.drop (h.length - 6)).map amendedLine).length = min 6 h.length := by
  constructor
  · rfl
  · intro h hne
    have hie : h.isEmpty = false := by
      cases h with
      | nil => exact absurd rfl hne
      | cons a t => rfl
    constructor
    · unfold summarize_history
      rw [hie]
      simp only [Bool.false_eq_true, if_false, if_neg (by omega : ¬ (6 : Nat) = 0)]
      congr 1
      exact List.map_congr_left (fun m _ => turnLine_eq_amendedLine m)
    · rw [List.length_map, List.length_drop]
      omega

/-- Witness for C8 (amended) on a two-turn history with an image-only
structured turn. -/
theorem claim8_summarize_amended_witness :
    summarize_history [⟨"user", .str "hello  there"⟩, ⟨"assistant", .items [.imageItem "u"]⟩] 6 =
      "User: hello there\nAssistant: (image provided)" := by
  rw [(claim8_summarize_amended.2
    [⟨"user", .str "hello  there"⟩, ⟨"assistant", .items [.imageItem "u"]⟩] (by simp)).1]
  rfl

/-- Counterexample to C8 as stated: a structured turn with one **empty**
text part.  The claim's wording reduces it to the empty concatenation
(the placeholder is reserved for "no text part exists"), but the source's
truthiness check substitutes `"(image provided)"` for the empty join, so
the produced line differs from the claimed one. -/
theorem claim8_counterexample :
    summarize_history [⟨"user", .items [.textItem ""]⟩] 6 = "User: (image provided)" ∧
    claimSummarize [⟨"user", .items [.textItem ""]⟩] = "User: " ∧
    ¬ summarize_history [⟨"user", .items [.textItem ""]⟩] 6 =
        claimSummarize [⟨"user", .items [.textItem ""]⟩] := by
  refine ⟨rfl, rfl, ?_⟩
  intro h
  have := congrArg String.length h
  revert this
  decide

end LabSafety
